import Mathlib

/-!
Verification of the intrinsic-value (DCF) calculator in `DCF.py`.

Numbers are modelled as rationals (`ℚ`).  A Python float that is `NaN`
(a missing value propagated by pandas) is modelled as `none : Option ℚ`;
arithmetic on such optional values propagates `none` exactly as IEEE
arithmetic propagates `NaN`, and `NaN > 0` is `False` in Python, which the
`optGtZero` function reproduces.  A Python `ZeroDivisionError` is modelled
by returning `none` from the function that would raise.  Statement rows
that may be absent from the balance sheet (`Total Debt`,
`Cash And Cash Equivalents`) are also `Option ℚ`, with absence defaulting
to `0` exactly as the source's conditional expressions do.
-/

/-- The `metric_used` tag set in `get_financial_data` (DCF.py lines 46-51). -/
inductive Metric where
  | ownerEarnings
  | netProfitFallback
  deriving DecidableEq, Repr

/-- The raw figures `get_financial_data` reads from the provider's statement
tables.  `none` means the value is missing / `NaN` (for `total_debt` and
`cash_and_equivalents`, that the statement row is absent). -/
structure RawFinancials where
  net_income : Option ℚ
  depreciation : Option ℚ
  shares_outstanding : Option ℚ
  current_price : Option ℚ
  total_debt : Option ℚ
  cash_and_equivalents : Option ℚ
  deriving DecidableEq, Repr

/-- The dictionary returned by `get_financial_data` on success
(DCF.py lines 68-78), restricted to the numeric fields the model consumes. -/
structure NormalizedData where
  starting_cash_flow : ℚ
  metric_used : Metric
  shares_outstanding : ℚ
  total_debt : ℚ
  cash_and_equivalents : ℚ
  current_price : ℚ
  deriving DecidableEq, Repr

/-- Addition with `NaN` propagation. -/
def optAdd : Option ℚ → Option ℚ → Option ℚ
  | some a, some b => some (a + b)
  | _, _ => none

/-- Subtraction with `NaN` propagation. -/
def optSub : Option ℚ → Option ℚ → Option ℚ
  | some a, some b => some (a - b)
  | _, _ => none

/-- Python's `x > 0` where `x` may be `NaN`: `NaN > 0` is `False`. -/
def optGtZero : Option ℚ → Bool
  | some a => a > 0
  | none => false

/-- Owner earnings: `net_income + depreciation - maintenance_capex`, with
`maintenance_capex = depreciation` (DCF.py lines 39-43). -/
def owner_earnings (r : RawFinancials) : Option ℚ :=
  optSub (optAdd r.net_income r.depreciation) r.depreciation

/-- The fallback branch of `get_financial_data` (DCF.py lines 46-51):
`if owner_earnings > 0: ... else: ...`. -/
def startingCashFlowAndMetric (r : RawFinancials) : Option ℚ × Metric :=
  if optGtZero (owner_earnings r) then
    (owner_earnings r, Metric.ownerEarnings)
  else
    (r.net_income, Metric.netProfitFallback)

/-- The normalization part of `get_financial_data` (DCF.py lines 39-78):
computes the starting cash flow with the fallback rule, defaults
`total_debt` and `cash_and_equivalents` to `0` when absent, and returns an
error (`none`) exactly when the `pd.notna` check on
`starting_cash_flow`, `shares_outstanding`, `current_price` fails
(DCF.py lines 65-66). -/
def get_financial_data (r : RawFinancials) : Option NormalizedData :=
  let sm := startingCashFlowAndMetric r
  match sm.1, r.shares_outstanding, r.current_price with
  | some scf, some n, some price =>
      some ⟨scf, sm.2, n, r.total_debt.getD 0, r.cash_and_equivalents.getD 0, price⟩
  | _, _, _ => none

/-- pandas `Series.pct_change` on a series with no `NaN` entries: the first
entry of the result is `NaN` (`none`), and entry `t` (for `t ≥ 1`) is
`(value_t - value_(t-1)) / value_(t-1)`. -/
def pct_change (xs : List ℚ) : List (Option ℚ) :=
  match xs with
  | [] => []
  | x :: rest => none :: List.zipWith (fun prev cur => some ((cur - prev) / prev)) (x :: rest) rest

/-- pandas `Series.dropna`: keep only the non-`NaN` entries. -/
def dropna (xs : List (Option ℚ)) : List ℚ :=
  xs.filterMap id

/-- The growth estimator `calculate_historical_growth` (DCF.py lines 82-90):
reverse the series,
take `pct_change().dropna()`, and if that is nonempty keep only the rates
`< 2` and return their mean (`mean` of an empty pandas series is `NaN`,
modelled `none`); only when `pct_change().dropna()` itself is empty is the
fixed default `0.05` returned. -/
def calculate_historical_growth (fcf_data : List ℚ) : Option ℚ :=
  let rev := fcf_data.reverse
  let growth_rates := dropna (pct_change rev)
  if growth_rates ≠ [] then
    let filtered := growth_rates.filter (fun x => x < 2)
    if filtered = [] then none
    else some (filtered.sum / (filtered.length : ℚ))
  else some (5 / 100)

/-- The two-stage DCF engine `run_dcf_model` (DCF.py lines 92-117).
Here `none` models the Python
exceptions the body can raise: the `IndexError` on
`future_cash_flows[-1]` when `period = 0`, and the `ZeroDivisionError`s
when `discount_rate - perpetual_rate = 0`, when `1 + discount_rate = 0`
(so a discount factor is `0`), or when `shares_outstanding = 0`. -/
def run_dcf_model (data : NormalizedData) (growth_rate discount_rate : ℚ)
    (period : ℕ) (perpetual_rate : ℚ) : Option ℚ :=
  let cash_flow := data.starting_cash_flow
  let shares := data.shares_outstanding
  let debt := data.total_debt
  let cash := data.cash_and_equivalents
  let future_cash_flows :=
    (List.range period).map (fun i => cash_flow * (1 + growth_rate) ^ (i + 1))
  match future_cash_flows.getLast? with
  | none => none
  | some last_projected_cf =>
    if discount_rate - perpetual_rate = 0 then none
    else if 1 + discount_rate = 0 then none
    else if shares = 0 then none
    else
      let terminal_value := last_projected_cf * (1 + perpetual_rate) / (discount_rate - perpetual_rate)
      let discounted_cf := future_cash_flows.enum.map
        (fun p => p.2 / (1 + discount_rate) ^ (p.1 + 1))
      let discounted_terminal_value := terminal_value / (1 + discount_rate) ^ period
      let total_pv_cf := discounted_cf.sum + discounted_terminal_value
      let equity_value := total_pv_cf - debt + cash
      some (equity_value / shares)

/-- The margin of safety `(intrinsic_value - current_price) / current_price`
(DCF.py line 200); `none` models the `ZeroDivisionError` at
`current_price = 0`. -/
def margin_of_safety (intrinsic_value current_price : ℚ) : Option ℚ :=
  if current_price = 0 then none
  else some ((intrinsic_value - current_price) / current_price)

/-- The verdict banner (DCF.py lines 202-215). -/
inductive Verdict where
  | undervalued
  | overvalued
  deriving DecidableEq, Repr

/-- The branch `if margin_of_safety > 0: ... undervalued ... else: ... overvalued ...`
(DCF.py lines 202-215). -/
def verdict (m : ℚ) : Verdict :=
  if m > 0 then Verdict.undervalued else Verdict.overvalued

/-- Applying `dropna` to an all-`some` `zipWith` gives the `zipWith` of the underlying rates. -/
lemma dropna_zipWith_some (f : ℚ → ℚ → ℚ) :
    ∀ (l l' : List ℚ),
      dropna (List.zipWith (fun a b => some (f a b)) l l') = List.zipWith f l l' := by
  intro l
  induction l with
  | nil => intro l'; rfl
  | cons a t ih =>
    intro l'
    cases l' with
    | nil => rfl
    | cons b t' =>
      have h := ih t'
      simp only [dropna] at h ⊢
      simp [List.filterMap_cons, h]

/-- The pipeline `pct_change().dropna()` computes the forward consecutive rates of the series. -/
lemma dropna_pct_change (ys : List ℚ) :
    dropna (pct_change ys) =
      List.zipWith (fun prev cur => (cur - prev) / prev) ys ys.tail := by
  cases ys with
  | nil => rfl
  | cons y rest =>
    simp only [pct_change, dropna, List.filterMap_cons, id]
    exact dropna_zipWith_some (fun prev cur => (cur - prev) / prev) (y :: rest) rest

/-- The number of usable rates is one less than the series length. -/
lemma dropna_pct_change_length (ys : List ℚ) :
    (dropna (pct_change ys)).length = ys.length - 1 := by
  rw [dropna_pct_change]
  cases ys with
  | nil => rfl
  | cons y rest => simp [List.length_zipWith]

/-- The first component of `startingCashFlowAndMetric` is missing exactly when
`net_income` is missing: a missing `depreciation` makes `owner_earnings`
missing, but then the fallback branch uses `net_income` directly. -/
lemma startingCashFlow_none_iff (r : RawFinancials) :
    (startingCashFlowAndMetric r).1 = none ↔ r.net_income = none := by
  obtain ⟨ni, dep, sh, pr, td, ce⟩ := r
  cases ni with
  | none =>
    cases dep <;>
      simp [startingCashFlowAndMetric, owner_earnings, optAdd, optSub, optGtZero]
  | some a =>
    cases dep with
    | none => simp [startingCashFlowAndMetric, owner_earnings, optAdd, optSub, optGtZero]
    | some b =>
      simp only [startingCashFlowAndMetric, owner_earnings, optAdd, optSub, optGtZero]
      split <;> simp

/-- C2: with numeric `net_income` and `depreciation`, owner earnings are
`net_income + depreciation - depreciation`; if that is strictly positive the
starting cash flow is owner earnings tagged `OwnerEarnings`, otherwise it is
`net_income` tagged `NetProfitFallback`, even when `net_income ≤ 0`. -/
theorem C2_fallback_policy (ni dep : ℚ) (sh pr td ce : Option ℚ) :
    owner_earnings ⟨some ni, some dep, sh, pr, td, ce⟩ = some (ni + dep - dep) ∧
    (ni + dep - dep > 0 →
      startingCashFlowAndMetric ⟨some ni, some dep, sh, pr, td, ce⟩ =
        (some (ni + dep - dep), Metric.ownerEarnings)) ∧
    (ni + dep - dep ≤ 0 →
      startingCashFlowAndMetric ⟨some ni, some dep, sh, pr, td, ce⟩ =
        (some ni, Metric.netProfitFallback)) := by
  refine ⟨rfl, fun h => ?_, fun h => ?_⟩
  · simp [startingCashFlowAndMetric, owner_earnings, optAdd, optSub, optGtZero, h]
    linarith
  · simp [startingCashFlowAndMetric, owner_earnings, optAdd, optSub, optGtZero, not_lt.2 h]
    linarith

/-- C2 witness: a positive-owner-earnings instance and a negative-net-income
fallback instance. -/
theorem C2_fallback_policy_witness :
    ((5 : ℚ) + 3 - 3 > 0 ∧
      startingCashFlowAndMetric ⟨some 5, some 3, none, none, none, none⟩ =
        (some ((5 : ℚ) + 3 - 3), Metric.ownerEarnings)) ∧
    ((-2 : ℚ) + 3 - 3 ≤ 0 ∧
      startingCashFlowAndMetric ⟨some (-2), some 3, none, none, none, none⟩ =
        (some (-2), Metric.netProfitFallback)) :=
  ⟨⟨by norm_num, (C2_fallback_policy 5 3 none none none none).2.1 (by norm_num)⟩,
   ⟨by norm_num, (C2_fallback_policy (-2) 3 none none none none).2.2 (by norm_num)⟩⟩

/-- C3 counterexample: the series `[10, 1]` (newest first) has the single
rate `9 ≥ 2`; every rate is removed by the outlier filter, and the code
returns the mean of an empty series (`NaN`, modelled `none`), not `0.05`. -/
theorem C3_counterexample : calculate_historical_growth [10, 1] = none := by
  norm_num [calculate_historical_growth, pct_change, dropna, List.zipWith, List.filterMap,
    List.filter, List.cons_ne_nil]

/-- C3 amended: the fixed `0.05` default is returned only when the series has
fewer than 2 data points; when at least 2 points are present but every rate
is removed by the `< 2` filter, the result is the mean of an empty series
(`NaN`, modelled `none`). -/
theorem C3_default_only_when_short (xs : List ℚ) :
    (xs.length < 2 → calculate_historical_growth xs = some (5 / 100)) ∧
    (2 ≤ xs.length → (∀ x ∈ xs, x ≠ 0) →
      (dropna (pct_change xs.reverse)).filter (fun x => x < 2) = [] →
      calculate_historical_growth xs = none) := by
  constructor
  · match xs with
    | [] => exact fun _ => rfl
    | [x] => exact fun _ => rfl
    | a :: b :: t => intro h; simp at h; omega
  · intro hlen _ hfil
    have hg : dropna (pct_change xs.reverse) ≠ [] := by
      intro h
      have hl := congrArg List.length h
      rw [dropna_pct_change_length, List.length_reverse] at hl
      simp at hl
      omega
    simp only [calculate_historical_growth]
    rw [if_pos hg, if_pos hfil]

/-- C3 witness: the empty series yields the `0.05` default; `[5, 1]` has its
only rate (`4`) filtered out and yields `none`. -/
theorem C3_default_only_when_short_witness :
    calculate_historical_growth [] = some (5 / 100) ∧
    calculate_historical_growth [5, 1] = none :=
  ⟨(C3_default_only_when_short []).1 (by norm_num),
   (C3_default_only_when_short [5, 1]).2 (by norm_num) (by norm_num)
     (by norm_num [pct_change, dropna, List.zipWith, List.filterMap, List.filter])⟩

/-- C6 counterexample: with `depreciation` missing but `net_income`,
`shares_outstanding` and `current_price` present, normalization succeeds
(it does not fail with a missing-field error as the claim requires). -/
theorem C6_counterexample :
    (⟨some 5, none, some 10, some 3, none, none⟩ : RawFinancials).depreciation = none ∧
    get_financial_data ⟨some 5, none, some 10, some 3, none, none⟩ =
      some ⟨5, Metric.netProfitFallback, 10, 0, 0, 3⟩ :=
  ⟨rfl, rfl⟩

/-- C6 amended: normalization fails exactly when `net_income`,
`shares_outstanding` or `current_price` is missing/`NaN`; a missing
`depreciation` alone does not cause failure (the fallback uses
`net_income`), and on success `total_debt` and `cash_and_equivalents`
default to `0` when absent. -/
theorem C6_missing_field_iff (r : RawFinancials) :
    (get_financial_data r = none ↔
      (r.net_income = none ∨ r.shares_outstanding = none ∨ r.current_price = none)) ∧
    (∀ nd : NormalizedData, get_financial_data r = some nd →
      nd.total_debt = r.total_debt.getD 0 ∧
      nd.cash_and_equivalents = r.cash_and_equivalents.getD 0) := by
  constructor
  · rw [← startingCashFlow_none_iff r]
    simp only [get_financial_data]
    split
    · rename_i scf n price h1 h2 h3
      simp [h1, h2, h3]
    · rename_i hno
      rcases h1 : (startingCashFlowAndMetric r).1 with _ | scf
      · simp [h1]
      rcases h2 : r.shares_outstanding with _ | n
      · simp [h2]
      rcases h3 : r.current_price with _ | price
      · simp [h3]
      exact (hno scf n price h1 h2 h3).elim
  · intro nd hnd
    simp only [get_financial_data] at hnd
    split at hnd
    · simp only [Option.some.injEq] at hnd
      subst hnd
      exact ⟨rfl, rfl⟩
    · simp at hnd

/-- C6 amended witness: a record missing only `net_income` fails; a complete
record with absent balance-sheet rows succeeds with the `0` defaults. -/
theorem C6_missing_field_iff_witness :
    get_financial_data ⟨none, some 2, some 10, some 3, none, none⟩ = none ∧
    ∀ nd : NormalizedData,
      get_financial_data ⟨some 5, some 2, some 10, some 3, none, none⟩ = some nd →
      nd.total_debt = (none : Option ℚ).getD 0 ∧
      nd.cash_and_equivalents = (none : Option ℚ).getD 0 :=
  ⟨(C6_missing_field_iff ⟨none, some 2, some 10, some 3, none, none⟩).1.2 (Or.inl rfl),
   fun nd hnd => (C6_missing_field_iff ⟨some 5, some 2, some 10, some 3, none, none⟩).2 nd hnd⟩

/-- C8: for a series of at least 2 nonzero values ordered newest-first, the
estimator reverses to oldest-first, computes each forward rate
`(cur - prev) / prev`, removes exactly the rates `≥ 2` (the filter keeps
everything `< 2`, so large negative rates survive), and returns the
arithmetic mean of the surviving rates when at least one survives. -/
theorem C8_growth_estimator (xs : List ℚ) (hlen : 2 ≤ xs.length)
    (_h_nonzero : ∀ x ∈ xs, x ≠ 0)
    (hsur : (List.zipWith (fun prev cur => (cur - prev) / prev) xs.reverse
        xs.reverse.tail).filter (fun x => x < 2) ≠ []) :
    calculate_historical_growth xs =
      some (((List.zipWith (fun prev cur => (cur - prev) / prev) xs.reverse
          xs.reverse.tail).filter (fun x => x < 2)).sum /
        (((List.zipWith (fun prev cur => (cur - prev) / prev) xs.reverse
          xs.reverse.tail).filter (fun x => x < 2)).length : ℚ)) := by
  have hg : dropna (pct_change xs.reverse) ≠ [] := by
    intro h
    have hl := congrArg List.length h
    rw [dropna_pct_change_length, List.length_reverse] at hl
    simp at hl
    omega
  have hfil : (dropna (pct_change xs.reverse)).filter (fun x => x < 2) ≠ [] := by
    rw [dropna_pct_change]
    exact hsur
  simp only [calculate_historical_growth]
  rw [if_pos hg, if_neg hfil, dropna_pct_change]

/-- C8 witness: `[1, 2, 3]` newest-first reverses to `[3, 2, 1]`, with rates
`-1/3` and `-1/2`, both surviving the filter; the mean is `-5/12`. -/
theorem C8_growth_estimator_witness :
    calculate_historical_growth [1, 2, 3] = some (-5 / 12) :=
  (C8_growth_estimator [1, 2, 3] (by norm_num) (by norm_num)
    (by norm_num [List.zipWith, List.filter, List.cons_ne_nil])).trans
    (by norm_num [List.zipWith, List.filter])

/-- Sum of a mapped `List.range` as a `Finset.range` sum. -/
lemma list_range_map_sum (f : ℕ → ℚ) : ∀ n : ℕ,
    ((List.range n).map f).sum = ∑ i ∈ Finset.range n, f i := by
  intro n
  induction n with
  | zero => rfl
  | succ k ih =>
    rw [List.range_succ, List.map_append, List.sum_append, Finset.sum_range_succ, ih]
    simp

/-- Enumerating a map over `List.range` pairs each index with its image. -/
lemma enum_map_range (g : ℕ → ℚ) (n : ℕ) :
    ((List.range n).map g).enum = (List.range n).map (fun i => (i, g i)) := by
  rw [List.enum_eq_zip_range, List.length_map, List.length_range]
  simpa using List.zip_map' id g (List.range n)

/-- The last projected cash flow is the image of the last index. -/
lemma getLast?_map_range (g : ℕ → ℚ) (n : ℕ) (hn : 1 ≤ n) :
    ((List.range n).map g).getLast? = some (g (n - 1)) := by
  obtain ⟨k, rfl⟩ : ∃ k, n = k + 1 := ⟨n - 1, by omega⟩
  rw [List.range_succ, List.map_append]
  simp

/-- Closed form of `run_dcf_model` in the nondegenerate case: per-year
compounded projections, Gordon terminal value, 1-indexed discounting,
equity bridge, division by shares. -/
lemma run_dcf_model_closed_form (d : NormalizedData) (g r pr : ℚ) (p : ℕ)
    (hp : 1 ≤ p) (hterm : r - pr ≠ 0) (hdisc : 1 + r ≠ 0)
    (hn : d.shares_outstanding ≠ 0) :
    run_dcf_model d g r p pr =
      some (((∑ i ∈ Finset.Icc 1 p,
          d.starting_cash_flow * (1 + g) ^ i / (1 + r) ^ i) +
        (d.starting_cash_flow * (1 + g) ^ p * (1 + pr) / (r - pr)) / (1 + r) ^ p
        - d.total_debt + d.cash_and_equivalents) / d.shares_outstanding) := by
  simp only [run_dcf_model, getLast?_map_range, hp]
  rw [if_neg hterm, if_neg hdisc, if_neg hn]
  simp only [Option.some.injEq]
  rw [Nat.sub_add_cancel hp, enum_map_range, List.map_map]
  rw [list_range_map_sum]
  simp only [Function.comp_apply]
  have hsum : (∑ i ∈ Finset.Icc 1 p, d.starting_cash_flow * (1 + g) ^ i / (1 + r) ^ i)
      = ∑ i ∈ Finset.range p,
          d.starting_cash_flow * (1 + g) ^ (i + 1) / (1 + r) ^ (i + 1) := by
    rw [← Nat.Ico_succ_right, Finset.sum_Ico_eq_sum_range]
    exact Finset.sum_congr (by simp) fun i _ => by rw [Nat.add_comm 1 i]
  rw [hsum]

/-- The model `run_dcf_model` errors exactly when a Python exception would occur:
empty projection (`IndexError`), zero Gordon denominator, zero discount
factor, or zero shares (`ZeroDivisionError`). -/
lemma run_dcf_model_eq_none_iff (d : NormalizedData) (g r pr : ℚ) (p : ℕ) :
    run_dcf_model d g r p pr = none ↔
      (p = 0 ∨ r - pr = 0 ∨ 1 + r = 0 ∨ d.shares_outstanding = 0) := by
  cases p with
  | zero => simp [run_dcf_model]
  | succ k =>
    have h5 := getLast?_map_range
      (fun i => d.starting_cash_flow * (1 + g) ^ (i + 1)) (k + 1) (by omega)
    simp only [run_dcf_model, h5]
    split_ifs with h1 h2 h3 <;> simp_all

/-- C1: for every normalized input and every assumption set with
`discount_rate > 0.025`, nonzero shares and period 5 or 10,
`run_dcf_model` returns exactly the sum of the per-year compounded,
1-indexed discounted projections, plus the discounted Gordon terminal
value `s·(1+g)^p·1.025 / (r − 0.025) / (1+r)^p`, minus debt plus cash,
divided by shares. -/
theorem C1_run_dcf_model_formula (d : NormalizedData) (g r : ℚ) (p : ℕ)
    (hp : p = 5 ∨ p = 10) (hr : (1 : ℚ) / 40 < r) (hn : d.shares_outstanding ≠ 0) :
    run_dcf_model d g r p (1 / 40) =
      some (((∑ i ∈ Finset.Icc 1 p,
          d.starting_cash_flow * (1 + g) ^ i / (1 + r) ^ i) +
        (d.starting_cash_flow * (1 + g) ^ p * (41 / 40) / (r - 1 / 40)) / (1 + r) ^ p
        - d.total_debt + d.cash_and_equivalents) / d.shares_outstanding) := by
  rw [run_dcf_model_closed_form d g r (1 / 40) p
    (by rcases hp with rfl | rfl <;> norm_num)
    (by intro h; rw [sub_eq_zero] at h; rw [h] at hr; exact lt_irrefl _ hr)
    (by intro h; nlinarith) hn]
  norm_num

/-- C1 witness: the formula instance at the spec's end-to-end example
(`s = 1`, `g = 8%`, `r = 11%`, 5 years, 1 share, no debt or cash). -/
theorem C1_run_dcf_model_formula_witness :
    (1 : ℚ) / 40 < 11 / 100 ∧
    run_dcf_model ⟨1, Metric.ownerEarnings, 1, 0, 0, 1⟩ (8 / 100) (11 / 100) 5 (1 / 40) =
      some (((∑ i ∈ Finset.Icc 1 5,
          (1 : ℚ) * (1 + 8 / 100) ^ i / (1 + 11 / 100) ^ i) +
        ((1 : ℚ) * (1 + 8 / 100) ^ 5 * (41 / 40) / (11 / 100 - 1 / 40)) / (1 + 11 / 100) ^ 5
        - 0 + 0) / 1) :=
  ⟨by norm_num,
   C1_run_dcf_model_formula ⟨1, Metric.ownerEarnings, 1, 0, 0, 1⟩ (8 / 100) (11 / 100) 5
     (Or.inl rfl) (by norm_num) (by norm_num)⟩

/-- C4 counterexample: with `discount_rate = 1% < 2.5% = perpetual rate`,
`run_dcf_model` happily returns a value — there is no `InvalidAssumption`
rejection anywhere in the code. -/
theorem C4_counterexample :
    (run_dcf_model ⟨1, Metric.ownerEarnings, 1, 0, 0, 1⟩ (8 / 100) (1 / 100) 5
      (1 / 40)).isSome = true := by
  norm_num [run_dcf_model, show List.range 5 = [0, 1, 2, 3, 4] from rfl, List.enum,
    List.enumFrom, List.getLast?]

/-- C4 amended: the code performs no validation of
`discount_rate > perpetual_rate`: at exact equality the terminal-value
division raises a raw `ZeroDivisionError` (modelled `none`), not a typed
`InvalidAssumption`, and for `discount_rate < perpetual_rate` it returns a
numeric valuation (computed through a negative terminal value) with no
rejection at all. -/
theorem C4_no_invalid_assumption_check (d : NormalizedData) (g r pr : ℚ) (p : ℕ) :
    (r = pr → run_dcf_model d g r p pr = none) ∧
    (r < pr → 1 + r ≠ 0 → d.shares_outstanding ≠ 0 → 1 ≤ p →
      (run_dcf_model d g r p pr).isSome = true) := by
  constructor
  · intro h
    rw [run_dcf_model_eq_none_iff]
    exact Or.inr (Or.inl (by rw [h, sub_self]))
  · intro h1 h2 h3 h4
    rw [Option.isSome_iff_ne_none]
    intro hcontra
    rw [run_dcf_model_eq_none_iff] at hcontra
    rcases hcontra with h | h | h | h
    · omega
    · rw [sub_eq_zero] at h; rw [h] at h1; exact lt_irrefl _ h1
    · exact h2 h
    · exact h3 h

/-- C4 witness: equality of the rates gives `none`; a discount rate below
the perpetual rate still gives a value. -/
theorem C4_no_invalid_assumption_check_witness :
    run_dcf_model ⟨1, Metric.ownerEarnings, 1, 0, 0, 1⟩ 0 (1 / 40) 5 (1 / 40) = none ∧
    (run_dcf_model ⟨1, Metric.ownerEarnings, 1, 0, 0, 1⟩ 0 (1 / 100) 5
      (1 / 40)).isSome = true :=
  ⟨(C4_no_invalid_assumption_check ⟨1, Metric.ownerEarnings, 1, 0, 0, 1⟩ 0 (1 / 40)
      (1 / 40) 5).1 rfl,
   (C4_no_invalid_assumption_check ⟨1, Metric.ownerEarnings, 1, 0, 0, 1⟩ 0 (1 / 100)
      (1 / 40) 5).2 (by norm_num) (by norm_num) (by norm_num) (by norm_num)⟩

/-- C5: a strictly positive margin of safety yields the undervalued verdict
and a zero or negative margin yields the overvalued verdict; in particular
`intrinsic_value = current_price` (margin exactly `0`) is overvalued. -/
theorem C5_margin_verdict (iv price m : ℚ) (hp : price ≠ 0)
    (hm : margin_of_safety iv price = some m) :
    (m > 0 → verdict m = Verdict.undervalued) ∧
    (m ≤ 0 → verdict m = Verdict.overvalued) ∧
    (iv = price → verdict m = Verdict.overvalued) := by
  have hm' : m = (iv - price) / price := by
    simpa [margin_of_safety, hp] using hm.symm
  refine ⟨fun h => ?_, fun h => ?_, fun h => ?_⟩
  · simp [verdict, h]
  · simp [verdict, not_lt.2 h]
  · have hz : m = 0 := by rw [hm', h, sub_self, zero_div]
    simp [verdict, hz]

/-- C5 witness: intrinsic value equal to price gives margin `0` and the
overvalued verdict. -/
theorem C5_margin_verdict_witness :
    (5 : ℚ) ≠ 0 ∧ margin_of_safety 5 5 = some 0 ∧ verdict 0 = Verdict.overvalued :=
  ⟨by norm_num, by norm_num [margin_of_safety],
   (C5_margin_verdict 5 5 0 (by norm_num) (by norm_num [margin_of_safety])).2.2 rfl⟩

/-- The explicit-stage sum plus discounted terminal value is strictly
increasing in the growth rate when the starting cash flow is positive. -/
lemma dcf_sum_terminal_lt_growth (s r pr g1 g2 : ℚ) (p : ℕ) (hs : 0 < s)
    (hrp : 0 < r - pr) (hr : 0 < 1 + r) (hpr : 0 < 1 + pr)
    (hg1 : 0 ≤ 1 + g1) (hlt : g1 < g2) (hp : 1 ≤ p) :
    (∑ i ∈ Finset.Icc 1 p, s * (1 + g1) ^ i / (1 + r) ^ i) +
      (s * (1 + g1) ^ p * (1 + pr) / (r - pr)) / (1 + r) ^ p <
    (∑ i ∈ Finset.Icc 1 p, s * (1 + g2) ^ i / (1 + r) ^ i) +
      (s * (1 + g2) ^ p * (1 + pr) / (r - pr)) / (1 + r) ^ p := by
  have hg12 : 1 + g1 < 1 + g2 := by linarith
  apply add_lt_add
  · apply Finset.sum_lt_sum_of_nonempty (Finset.nonempty_Icc.2 hp)
    intro i hi
    have hi1 : 1 ≤ i := (Finset.mem_Icc.1 hi).1
    have hpow : (1 + g1) ^ i < (1 + g2) ^ i :=
      pow_lt_pow_left₀ hg12 hg1 (by omega)
    exact (div_lt_div_iff_of_pos_right (pow_pos hr i)).2 (mul_lt_mul_of_pos_left hpow hs)
  · have hpow : (1 + g1) ^ p < (1 + g2) ^ p :=
      pow_lt_pow_left₀ hg12 hg1 (by omega)
    apply (div_lt_div_iff_of_pos_right (pow_pos hr p)).2
    apply (div_lt_div_iff_of_pos_right hrp).2
    exact mul_lt_mul_of_pos_right (mul_lt_mul_of_pos_left hpow hs) hpr

/-- The explicit-stage sum plus discounted terminal value is strictly
decreasing in the discount rate when the starting cash flow is positive. -/
lemma dcf_sum_terminal_lt_rate (s g pr r1 r2 : ℚ) (p : ℕ) (hs : 0 < s) (hg : 0 < 1 + g)
    (hpr : 0 < 1 + pr) (h1 : 0 < r1 - pr) (hlt : r1 < r2) (hp : 1 ≤ p) :
    (∑ i ∈ Finset.Icc 1 p, s * (1 + g) ^ i / (1 + r2) ^ i) +
      (s * (1 + g) ^ p * (1 + pr) / (r2 - pr)) / (1 + r2) ^ p <
    (∑ i ∈ Finset.Icc 1 p, s * (1 + g) ^ i / (1 + r1) ^ i) +
      (s * (1 + g) ^ p * (1 + pr) / (r1 - pr)) / (1 + r1) ^ p := by
  have hr1 : 0 < 1 + r1 := by linarith
  have hr12 : 1 + r1 < 1 + r2 := by linarith
  apply add_lt_add
  · apply Finset.sum_lt_sum_of_nonempty (Finset.nonempty_Icc.2 hp)
    intro i hi
    have hi1 : 1 ≤ i := (Finset.mem_Icc.1 hi).1
    have hpow : (1 + r1) ^ i < (1 + r2) ^ i :=
      pow_lt_pow_left₀ hr12 (le_of_lt hr1) (by omega)
    exact div_lt_div_of_pos_left (mul_pos hs (pow_pos hg i)) (pow_pos hr1 i) hpow
  · rw [div_div, div_div]
    apply div_lt_div_of_pos_left
    · exact mul_pos (mul_pos hs (pow_pos hg p)) hpr
    · exact mul_pos h1 (pow_pos hr1 p)
    · exact mul_lt_mul'' (by linarith) (pow_lt_pow_left₀ hr12 (le_of_lt hr1) (by omega))
        (le_of_lt h1) (le_of_lt (pow_pos hr1 p))

/-- C7 counterexample: with a negative starting cash flow (which the
fallback policy can produce), raising the growth rate from `0` to `10%`
strictly DECREASES the intrinsic value per share, so the claimed
monotonicity fails for some `NormalizedInputs`. -/
theorem C7_counterexample :
    (run_dcf_model ⟨-1, Metric.netProfitFallback, 1, 0, 0, 1⟩ (1 / 10) (11 / 100) 5
        (1 / 40)).getD 0 <
    (run_dcf_model ⟨-1, Metric.netProfitFallback, 1, 0, 0, 1⟩ 0 (11 / 100) 5
        (1 / 40)).getD 0 := by
  norm_num [run_dcf_model, show List.range 5 = [0, 1, 2, 3, 4] from rfl, List.enum,
    List.enumFrom, List.getLast?]

/-- C7 amended: for inputs with strictly positive starting cash flow (and
growth rates in the data model's range `≥ 0`, discount rates above the
`2.5%` perpetual rate, positive shares, nonzero horizon), `run_dcf_model`
is strictly increasing in the growth rate and strictly decreasing in the
discount rate. -/
theorem C7_monotonicity (d : NormalizedData) (p : ℕ)
    (hs : 0 < d.starting_cash_flow) (hn : 0 < d.shares_outstanding) (hp : 1 ≤ p) :
    (∀ g1 g2 r : ℚ, (1 : ℚ) / 40 < r → 0 ≤ g1 → g1 < g2 →
      (run_dcf_model d g1 r p (1 / 40)).getD 0 <
        (run_dcf_model d g2 r p (1 / 40)).getD 0) ∧
    (∀ g r1 r2 : ℚ, 0 ≤ g → (1 : ℚ) / 40 < r1 → r1 < r2 →
      (run_dcf_model d g r2 p (1 / 40)).getD 0 <
        (run_dcf_model d g r1 p (1 / 40)).getD 0) := by
  have hn' : d.shares_outstanding ≠ 0 := ne_of_gt hn
  constructor
  · intro g1 g2 r hr hg1 hlt
    rw [run_dcf_model_closed_form d g1 r (1 / 40) p hp (by intro h; nlinarith)
        (by intro h; nlinarith) hn',
      run_dcf_model_closed_form d g2 r (1 / 40) p hp (by intro h; nlinarith)
        (by intro h; nlinarith) hn']
    simp only [Option.getD_some]
    apply (div_lt_div_iff_of_pos_right hn).2
    apply add_lt_add_right
    apply sub_lt_sub_right
    exact dcf_sum_terminal_lt_growth d.starting_cash_flow r (1 / 40) g1 g2 p hs
      (by linarith) (by linarith) (by norm_num) (by linarith) hlt hp
  · intro g r1 r2 hg h1 hlt
    rw [run_dcf_model_closed_form d g r1 (1 / 40) p hp (by intro h; nlinarith)
        (by intro h; nlinarith) hn',
      run_dcf_model_closed_form d g r2 (1 / 40) p hp (by intro h; nlinarith)
        (by intro h; nlinarith) hn']
    simp only [Option.getD_some]
    apply (div_lt_div_iff_of_pos_right hn).2
    apply add_lt_add_right
    apply sub_lt_sub_right
    exact dcf_sum_terminal_lt_rate d.starting_cash_flow g (1 / 40) r1 r2 p hs
      (by linarith) (by norm_num) (by linarith) hlt hp

/-- C7 witness: at the spec's example inputs, raising growth from `8%` to
`9%` raises the value, and raising the discount rate from `11%` to `12%`
lowers it. -/
theorem C7_monotonicity_witness :
    (run_dcf_model ⟨1, Metric.ownerEarnings, 1, 0, 0, 1⟩ (8 / 100) (11 / 100) 5
        (1 / 40)).getD 0 <
      (run_dcf_model ⟨1, Metric.ownerEarnings, 1, 0, 0, 1⟩ (9 / 100) (11 / 100) 5
        (1 / 40)).getD 0 ∧
    (run_dcf_model ⟨1, Metric.ownerEarnings, 1, 0, 0, 1⟩ (8 / 100) (12 / 100) 5
        (1 / 40)).getD 0 <
      (run_dcf_model ⟨1, Metric.ownerEarnings, 1, 0, 0, 1⟩ (8 / 100) (11 / 100) 5
        (1 / 40)).getD 0 :=
  ⟨(C7_monotonicity ⟨1, Metric.ownerEarnings, 1, 0, 0, 1⟩ 5 (by norm_num) (by norm_num)
      (by norm_num)).1 (8 / 100) (9 / 100) (11 / 100) (by norm_num) (by norm_num)
      (by norm_num),
   (C7_monotonicity ⟨1, Metric.ownerEarnings, 1, 0, 0, 1⟩ 5 (by norm_num) (by norm_num)
      (by norm_num)).2 (8 / 100) (11 / 100) (12 / 100) (by norm_num) (by norm_num)
      (by norm_num)⟩

/-- C9 counterexample: with `shares_outstanding = -1 < 0`, `run_dcf_model`
returns a number (Python division by a negative float does not fail), and
with `current_price = -1 < 0` the margin of safety is likewise a number. -/
theorem C9_counterexample :
    (run_dcf_model ⟨1, Metric.ownerEarnings, -1, 0, 0, 1⟩ 0 (11 / 100) 5
      (1 / 40)).isSome = true ∧
    (margin_of_safety 5 (-1)).isSome = true := by
  constructor
  · norm_num [run_dcf_model, show List.range 5 = [0, 1, 2, 3, 4] from rfl, List.enum,
      List.enumFrom, List.getLast?]
  · norm_num [margin_of_safety]

/-- C9 amended: the per-share division fails exactly at
`shares_outstanding = 0` (a raw `ZeroDivisionError`, not a typed
`DivisionHazard`) and the margin-of-safety division fails exactly at
`current_price = 0`; strictly negative shares or price produce numeric
results. -/
theorem C9_division_fails_only_at_zero (d : NormalizedData) (g r pr : ℚ) (p : ℕ)
    (iv price : ℚ) :
    (d.shares_outstanding = 0 → run_dcf_model d g r p pr = none) ∧
    (d.shares_outstanding ≠ 0 → r - pr ≠ 0 → 1 + r ≠ 0 → 1 ≤ p →
      (run_dcf_model d g r p pr).isSome = true) ∧
    (price = 0 → margin_of_safety iv price = none) ∧
    (price ≠ 0 → (margin_of_safety iv price).isSome = true) := by
  refine ⟨fun h => ?_, fun h1 h2 h3 h4 => ?_, fun h => ?_, fun h => ?_⟩
  · rw [run_dcf_model_eq_none_iff]
    exact Or.inr (Or.inr (Or.inr h))
  · rw [Option.isSome_iff_ne_none]
    intro hcontra
    rw [run_dcf_model_eq_none_iff] at hcontra
    rcases hcontra with h | h | h | h
    · omega
    · exact h2 h
    · exact h3 h
    · exact h1 h
  · simp [margin_of_safety, h]
  · simp [margin_of_safety, h]

/-- C9 witness: zero shares and zero price fail; negative price succeeds. -/
theorem C9_division_fails_only_at_zero_witness :
    run_dcf_model ⟨1, Metric.ownerEarnings, 0, 0, 0, 1⟩ 0 (11 / 100) 5 (1 / 40) = none ∧
    margin_of_safety 5 0 = none ∧
    (margin_of_safety 5 (-2)).isSome = true :=
  ⟨(C9_division_fails_only_at_zero ⟨1, Metric.ownerEarnings, 0, 0, 0, 1⟩ 0 (11 / 100)
      (1 / 40) 5 5 0).1 rfl,
   (C9_division_fails_only_at_zero ⟨1, Metric.ownerEarnings, 0, 0, 0, 1⟩ 0 (11 / 100)
      (1 / 40) 5 5 0).2.2.1 rfl,
   (C9_division_fails_only_at_zero ⟨1, Metric.ownerEarnings, 0, 0, 0, 1⟩ 0 (11 / 100)
      (1 / 40) 5 5 (-2)).2.2.2 (by norm_num)⟩

/-- C10: when `depreciation` is missing/`NaN` but `net_income`,
`shares_outstanding` and `current_price` are present, owner earnings are
`NaN`, the `> 0` test is false, the fallback sets the starting cash flow to
`net_income` with the `NetProfitFallback` tag, and normalization succeeds. -/
theorem C10_missing_depreciation_falls_back (ni sh pr : ℚ) (td ce : Option ℚ) :
    get_financial_data ⟨some ni, none, some sh, some pr, td, ce⟩ =
      some ⟨ni, Metric.netProfitFallback, sh, td.getD 0, ce.getD 0, pr⟩ := rfl
